import Mathlib

/-!
# Verification of the temp-mon temperature resolution pipeline

Shallow embedding of `src/main.ts`: the CPU temperature resolver
(`getCpuTemperature`), the GPU temperature enumerator (`getGpuTemperatures`)
and the poll supervisor (`main`).  JavaScript numbers are modelled by `JsNum`
(NaN, the two infinities, and finite values carried exactly as rationals);
filesystem reads, subprocess invocations and library calls are modelled as
environment fields of type `Except Unit _` (`.error ()` standing for a thrown
exception) or `Option _` (for a missing file / unset variable).
-/

namespace TempMon

/-- A JavaScript number: NaN, +Infinity, -Infinity, or a finite value.
Finite double arithmetic is modelled exactly over `ℚ`. -/
inductive JsNum where
  | nan
  | inf
  | ninf
  | fin (q : ℚ)
deriving DecidableEq, Repr

/-- `Number.isNaN`. -/
def JsNum.isNaNb : JsNum → Bool
  | .nan => true
  | _ => false

/-- The JavaScript `>` comparison on numbers: any comparison with NaN is
false; the infinities compare as expected; finite values compare on `ℚ`. -/
def jsGt : JsNum → JsNum → Bool
  | .nan, _ => false
  | _, .nan => false
  | .inf, .inf => false
  | .inf, _ => true
  | .ninf, _ => false
  | .fin _, .inf => false
  | .fin _, .ninf => true
  | .fin q, .fin r => decide (r < q)

/-- Whitespace as matched by JavaScript `\s` / trimmed by `String.trim`
(restricted to the ASCII characters that can occur in the modelled data). -/
def isJsSpace (c : Char) : Bool :=
  c == ' ' || c == '\t' || c == '\n' || c == '\r' || c == '\x0b' || c == '\x0c'

/-- Trim leading and trailing whitespace from a character list. -/
def trimL (cs : List Char) : List Char :=
  ((cs.dropWhile isJsSpace).reverse.dropWhile isJsSpace).reverse

/-- JavaScript `String.prototype.trim`. -/
def trimS (s : String) : String := ⟨trimL s.data⟩

/-- `l` begins with `pat`. -/
def hasPrefixL : List Char → List Char → Bool
  | _, [] => true
  | [], _ :: _ => false
  | c :: cs, d :: ds => c == d && hasPrefixL cs ds

/-- `pat` occurs as a contiguous substring of the list. -/
def hasSubL (pat : List Char) : List Char → Bool
  | [] => pat.isEmpty
  | c :: rest => hasPrefixL (c :: rest) pat || hasSubL pat rest

/-- Case-insensitive substring test: the JavaScript regex `/pat/i.test s`
for a literal (alternation-free) pattern `pat` given in lower case. -/
def containsCI (s pat : String) : Bool :=
  hasSubL pat.data (s.data.map Char.toLower)

/-- Numeric value of a list of decimal digits. -/
def digitsToNat (ds : List Char) : ℕ :=
  ds.foldl (fun n c => 10 * n + (c.toNat - '0'.toNat)) 0

/-- Digit-prefix parse: `none` when the list starts with no decimal digit. -/
def parseDigits (cs : List Char) : Option ℕ :=
  let ds := cs.takeWhile Char.isDigit
  if ds.isEmpty then none else some (digitsToNat ds)

/-- JavaScript `parseInt(s, 10)`: skip leading whitespace, optional sign,
then the longest decimal-digit prefix; `none` models a NaN result. -/
def parseIntS (s : String) : Option ℤ :=
  match s.data.dropWhile isJsSpace with
  | '-' :: rest => (parseDigits rest).map (fun n => -(n : ℤ))
  | '+' :: rest => (parseDigits rest).map (fun n => (n : ℤ))
  | rest => (parseDigits rest).map (fun n => (n : ℤ))

/-- Unsigned decimal mantissa of a `parseFloat` literal:
`digits [. digits]` or `. digits`; returns the value and the rest. -/
def pfMantissa (cs : List Char) : Option (ℚ × List Char) :=
  let intPart := cs.takeWhile Char.isDigit
  let rest := cs.dropWhile Char.isDigit
  match rest with
  | '.' :: r2 =>
    let fracPart := r2.takeWhile Char.isDigit
    let r3 := r2.dropWhile Char.isDigit
    if intPart.isEmpty && fracPart.isEmpty then none
    else some ((digitsToNat intPart : ℚ)
      + (digitsToNat fracPart : ℚ) / ((10 : ℚ) ^ fracPart.length), r3)
  | _ =>
    if intPart.isEmpty then none else some ((digitsToNat intPart : ℚ), rest)

/-- Apply a trailing decimal exponent (if syntactically complete) to a
mantissa value, as `parseFloat` does; an incomplete exponent is ignored. -/
def pfApplyExp (q : ℚ) (cs : List Char) : ℚ :=
  match cs with
  | 'e' :: r => pfExpTail q r
  | 'E' :: r => pfExpTail q r
  | _ => q
where
  pfExpTail (q : ℚ) (r : List Char) : ℚ :=
    match r with
    | '-' :: r2 =>
      match parseDigits r2 with
      | some n => q / (10 : ℚ) ^ n
      | none => q
    | '+' :: r2 =>
      match parseDigits r2 with
      | some n => q * (10 : ℚ) ^ n
      | none => q
    | r2 =>
      match parseDigits r2 with
      | some n => q * (10 : ℚ) ^ n
      | none => q

/-- Signless body of `parseFloat`: `Infinity` or a decimal literal. -/
def parseFloatBody (neg : Bool) (cs : List Char) : Option JsNum :=
  if hasPrefixL cs "Infinity".data then
    some (if neg then JsNum.ninf else JsNum.inf)
  else
    match pfMantissa cs with
    | none => none
    | some (q, rest) =>
      let v := pfApplyExp q rest
      some (JsNum.fin (if neg then -v else v))

/-- JavaScript `parseFloat`: skip leading whitespace, optional sign, then
the longest decimal-literal (or `Infinity`) prefix; `none` models NaN. -/
def parseFloatS (s : String) : Option JsNum :=
  match s.data.dropWhile isJsSpace with
  | '-' :: rest => parseFloatBody true rest
  | '+' :: rest => parseFloatBody false rest
  | rest => parseFloatBody false rest

/-- `parseFloat(x.toFixed(1))` for a finite value: round to the nearest
multiple of 1/10, ties toward +∞ (`Number.prototype.toFixed` picks the
larger candidate integer on a tie, and `round` on `ℚ` rounds half up). -/
def toFixed1 (q : ℚ) : ℚ := (round (10 * q) : ℤ) / 10

/-! ## The LibreHardwareMonitor JSON walk (`main.ts` lines 29–57) -/

mutual
/-- A parsed LHM JSON node as seen by `walk`: an optional `Text` field (a
string, `none` when absent or not a string), an optional `Value` field
(`some` exactly when the field is number-typed), and the `Children` field
(a node with an absent or non-array `Children` carries the empty forest;
non-object children, which `walk` ignores, are omitted).  The tree is
produced exclusively by `JSON.parse` (`main.ts` line 32), which can never
yield a NaN number — `lhmNanFree` below captures this range (±Infinity can
still arise, from numeric overflow of a large literal). -/
inductive LhmNode where
  | node (text : Option String) (value : Option JsNum) (children : LhmForest)
/-- A list of LHM JSON nodes (the `Children` array). -/
inductive LhmForest where
  | nil
  | cons (hd : LhmNode) (tl : LhmForest)
end

/-- The regex `/tctl|tdie|package|cpu temp|ccd|core \(tctl\/tdie\)/i` on a
node label. -/
def lhmLabelMatch (t : String) : Bool :=
  containsCI t "tctl" || containsCI t "tdie" || containsCI t "package" ||
  containsCI t "cpu temp" || containsCI t "ccd" || containsCI t "core (tctl/tdie)"

/-- `if (best === null || value > best) best = value;` as a function of the
running best. -/
def jsUpd (best : Option JsNum) (v : JsNum) : Option JsNum :=
  match best with
  | none => some v
  | some b => if jsGt v b then some v else some b

/-- One visit of `walk`: `if (text && regex.test(text) && typeof value ===
'number') { if (best === null || value > best) best = value; }`. -/
def lhmUpdate (best : Option JsNum) (text : Option String) (value : Option JsNum) :
    Option JsNum :=
  match text, value with
  | some t, some v =>
    if !t.isEmpty && lhmLabelMatch t then jsUpd best v else best
  | _, _ => best

mutual
/-- The recursive `walk` closure, with the mutable `best` threaded through:
visit the node, then its children left to right. -/
def lhmWalk (best : Option JsNum) : LhmNode → Option JsNum
  | .node t v cs => lhmForestWalk (lhmUpdate best t v) cs
/-- `walk` over a `Children` array. -/
def lhmForestWalk (best : Option JsNum) : LhmForest → Option JsNum
  | .nil => best
  | .cons c cs => lhmForestWalk (lhmWalk best c) cs
end

/-- The value a single node contributes to the spec's collection: its
`Value` when its label is a non-empty match and the value is a number. -/
def specNodeValue (t : Option String) (v : Option JsNum) : List JsNum :=
  match t, v with
  | some txt, some val =>
    if !txt.isEmpty && lhmLabelMatch txt then [val] else []
  | _, _ => []

mutual
/-- Specification-side companion of `lhmWalk` (from the spec's words): the
values of the nodes "whose label matches (case-insensitive)
`tctl|tdie|package|cpu temp|ccd|core (tctl/tdie)`", in visit order. -/
def specLhmValues : LhmNode → List JsNum
  | .node t v cs => specNodeValue t v ++ specLhmForestValues cs
/-- `specLhmValues` over a forest. -/
def specLhmForestValues : LhmForest → List JsNum
  | .nil => []
  | .cons c cs => specLhmValues c ++ specLhmForestValues cs
end

/-- Whether an optional `Value` field is NaN-free. -/
def valueNanFree : Option JsNum → Bool
  | some .nan => false
  | _ => true

mutual
/-- Realizability of an LHM snapshot: no node's `Value` is NaN.  Every
tree `JSON.parse` can produce satisfies this — JSON has no NaN literal and
numeric overflow yields ±Infinity, never NaN. -/
def lhmNanFree : LhmNode → Bool
  | .node _ v cs => valueNanFree v && lhmForestNanFree cs
/-- `lhmNanFree` over a forest. -/
def lhmForestNanFree : LhmForest → Bool
  | .nil => true
  | .cons c cs => lhmNanFree c && lhmForestNanFree cs
end

/-! ## The kernel thermal-zone scan (`main.ts` lines 101–139) -/

/-- One directory entry of `/sys/class/thermal`.  For each of the `type` and
`temp` files, `none` models `fs.existsSync` returning false, `some none` a
file that exists but whose `readFileSync` throws, and `some (some s)` a
successful read of content `s`. -/
structure ZoneDir where
  name : String
  typeFile : Option (Option String)
  tempFile : Option (Option String)
deriving DecidableEq, Repr

/-- The regex `/cpu|x86_pkg|soc/i` on a zone's type label. -/
def cpuZoneTypeMatch (t : String) : Bool :=
  containsCI t "cpu" || containsCI t "x86_pkg" || containsCI t "soc"

/-- One iteration of the zone loop: skip when either file is missing or the
`type` read throws; on a type match, read and parse `temp` (a throwing or
unparsable read is ignored) and keep the maximum `milli / 1000`. -/
def zoneStep (best : Option ℚ) (z : ZoneDir) : Option ℚ :=
  match z.typeFile, z.tempFile with
  | some tRead, some pRead =>
    match tRead with
    | none => best
    | some tContent =>
      if cpuZoneTypeMatch (trimS tContent) then
        match pRead with
        | none => best
        | some raw =>
          match parseIntS (trimS raw) with
          | none => best
          | some milli =>
            let c : ℚ := (milli : ℚ) / 1000
            match best with
            | none => some c
            | some b => if b < c then some c else some b
      else best
  | _, _ => best

/-- JavaScript `s.startsWith(pat)`. -/
def startsWithS (s pat : String) : Bool := hasPrefixL s.data pat.data

/-- The zone loop over the directory listing, after the
`d.startsWith('thermal_zone')` filter. -/
def scanZones (entries : List ZoneDir) : Option ℚ :=
  (entries.filter (fun z => startsWithS z.name "thermal_zone")).foldl zoneStep none

/-! ## The CPU resolver (`main.ts` lines 10–140) -/

/-- The environment one run of `getCpuTemperature` observes.  `.error ()`
models a thrown exception at the corresponding call site. -/
structure CpuEnv where
  /-- `si.cpuTemperature()`: a throw, or the `main` field (`some` exactly
  when it is number-typed; NaN and the infinities are number-typed). -/
  siMain : Except Unit (Option JsNum)
  /-- `process.platform === 'win32'`. -/
  win32 : Bool
  /-- The LHM snapshot: `none` when `LHM_JSON_PATH` is unset or
  `fs.existsSync` fails, `some (.error ())` when reading or `JSON.parse`
  throws, `some (.ok t)` for a parsed tree. -/
  lhm : Option (Except Unit LhmNode)
  /-- stdout of the OpenHardwareMonitor WMI PowerShell query (or a throw). -/
  ohm : Except Unit String
  /-- stdout of the `MSAcpi_ThermalZoneTemperature` query (or a throw). -/
  wmi : Except Unit String
  /-- `/sys/class/thermal`: `none` when `fs.existsSync` is false,
  `some (.error ())` when `readdirSync` throws, else the entries. -/
  thermalRoot : Option (Except Unit (List ZoneDir))

/-- Strategy 1 (lines 11–21): accept `cpu.main` when it is number-typed and
not NaN; any throw is caught and the chain continues. -/
def strat1 (e : CpuEnv) : Option JsNum :=
  match e.siMain with
  | .error () => none
  | .ok none => none
  | .ok (some v) => if v.isNaNb then none else some v

/-- Strategy 2a (lines 29–57): walk the exported LHM JSON; a missing path,
unreadable file or parse error yields nothing. -/
def stratLhm (e : CpuEnv) : Option JsNum :=
  match e.lhm with
  | none => none
  | some (.error ()) => none
  | some (.ok tree) => lhmWalk none tree

/-- Strategy 2b (lines 59–75): trimmed OHM query output, if non-empty,
parsed with `parseFloat` and accepted unless NaN. -/
def stratOhm (e : CpuEnv) : Option JsNum :=
  match e.ohm with
  | .error () => none
  | .ok outRaw =>
    let out := trimS outRaw
    if out.isEmpty then none
    else
      match parseFloatS out with
      | none => none
      | some v => some v

/-- Strategy 2c (lines 77–98): trimmed MSAcpi output parsed with `parseInt`;
a positive raw value is read as tenths of Kelvin, converted via
`raw / 10 - 273.15`, range-checked to `(-50, 150)` and rounded to one
decimal (`parseFloat(c.toFixed(1))`). -/
def stratWmi (e : CpuEnv) : Option JsNum :=
  match e.wmi with
  | .error () => none
  | .ok rawOut =>
    let raw := trimS rawOut
    if raw.isEmpty then none
    else
      match parseIntS raw with
      | none => none
      | some val =>
        if 0 < val then
          let c : ℚ := (val : ℚ) / 10 - 27315 / 100
          if -50 < c ∧ c < 150 then some (JsNum.fin (toFixed1 c)) else none
        else none

/-- Strategy 3 (lines 101–139): the thermal-zone scan; an absent
`/sys/class/thermal` or a throwing `readdirSync` yields nothing. -/
def stratZones (e : CpuEnv) : Option JsNum :=
  match e.thermalRoot with
  | none => none
  | some (.error ()) => none
  | some (.ok entries) => (scanZones entries).map JsNum.fin

/-- The Windows-only sub-chain (lines 26–99): LHM JSON, then OHM WMI, then
MSAcpi, each tried on the previous one's failure. -/
def winChain (e : CpuEnv) : Option JsNum :=
  match stratLhm e with
  | some v => some v
  | none =>
    match stratOhm e with
    | some v => some v
    | none => stratWmi e

/-- `getCpuTemperature` (lines 10–140): strategy 1, then on `win32` the
Windows sub-chain, then the thermal-zone fallback; `none` models the
function returning `null`. -/
def getCpuTemperature (e : CpuEnv) : Option JsNum :=
  match strat1 e with
  | some v => some v
  | none =>
    match (if e.win32 then winChain e else none) with
    | some v => some v
    | none => stratZones e

/-! ## The GPU enumerator (`main.ts` lines 142–204) -/

/-- One controller from `si.graphics().controllers`: vendor and model
strings, and the two temperature fields (`some` exactly when number-typed). -/
structure Controller where
  vendor : String
  model : String
  temperatureGpu : Option JsNum
  temperatureMemory : Option JsNum
deriving DecidableEq, Repr

/-- The emitted record (`GpuTempInfo` in the source). -/
structure GpuTempInfo where
  model : String
  temperatureGpu : Option JsNum
  temperatureMemory : Option JsNum
  source : String
deriving DecidableEq, Repr

/-- The regex `/nvidia/i` on `c.vendor + ' ' + c.model`. -/
def nvidiaMatch (vendor model : String) : Bool :=
  containsCI (vendor ++ " " ++ model) "nvidia"

/-- `typeof x === 'number' && !Number.isNaN(x) ? x : null` on an optional
number-typed field. -/
def libNumber (v : Option JsNum) : Option JsNum :=
  match v with
  | some v => if v.isNaNb then none else some v
  | none => none

/-- The first element of `out.split(/\s*\n\s*/)` (or `''`) for an already
trimmed `out`: the characters before the first newline, with the whitespace
preceding that newline removed. -/
def firstSmiLine (out : String) : String :=
  ⟨((out.data.takeWhile (fun c => c != '\n')).reverse.dropWhile isJsSpace).reverse⟩

/-- The `nvidia-smi` invocation and parse (lines 169–188): a throwing
`execSync` is caught, the trimmed output's first line is parsed with
`parseInt`, and NaN is rejected; `none` covers every failure. -/
def smiParse (smiRes : Except Unit String) : Option ℤ :=
  match smiRes with
  | .error () => none
  | .ok outRaw => parseIntS (firstSmiLine (trimS outRaw))

/-- The loop body for one controller (lines 156–198): library temperatures
filtered for number-typedness and NaN; the vendor CLI tried exactly when the
GPU temperature is `null` and the vendor+model string matches `/nvidia/i`,
overwriting the temperature and the source on success; the model label is
`c.model || c.vendor || 'Unknown GPU'`. -/
def resolveController (smiRes : Except Unit String) (c : Controller) : GpuTempInfo :=
  let temp0 := libNumber c.temperatureGpu
  let memTemp := libNumber c.temperatureMemory
  let tempSource : Option JsNum × String :=
    if temp0.isNone && nvidiaMatch c.vendor c.model then
      match smiParse smiRes with
      | some n => (some (JsNum.fin (n : ℚ)), "nvidia-smi")
      | none => (temp0, "systeminformation")
    else (temp0, "systeminformation")
  { model := if c.model != "" then c.model else if c.vendor != "" then c.vendor else "Unknown GPU"
    temperatureGpu := tempSource.1
    temperatureMemory := memTemp
    source := tempSource.2 }

/-- The environment one run of `getGpuTemperatures` observes: the
`si.graphics()` result (or a throw), and the stdout the `nvidia-smi` child
process would produce for the controller at each position. -/
structure GpuEnv where
  graphics : Except Unit (List Controller)
  smi : ℕ → Except Unit String

/-- `getGpuTemperatures` (lines 152–204): one record per enumerated
controller in enumeration order; a throwing `si.graphics()` is caught and
yields the empty list. -/
def getGpuTemperatures (e : GpuEnv) : List GpuTempInfo :=
  match e.graphics with
  | .error () => []
  | .ok cs => cs.enum.map (fun p => resolveController (e.smi p.1) p.2)

/-! ## The poll supervisor (`main.ts` lines 234–255) -/

/-- `const intervalMs = 30_000`. -/
def intervalMs : ℤ := 30000

/-- The sleep the tick performs: `remaining = intervalMs - elapsed`, slept
only when positive (lines 244–248). -/
def sleepFor (elapsed : ℤ) : ℤ :=
  if intervalMs - elapsed > 0 then intervalMs - elapsed else 0

/-- Observable outcome of one tick. -/
structure TickRes where
  /-- Whether `logger.error('Job failed', err)` ran (the tick-boundary catch). -/
  errorLogged : Bool
  /-- The `Date.now()` at which the next tick starts. -/
  nextStart : ℤ
deriving DecidableEq, Repr

/-- One iteration of the `while (true)` loop: `started` is read first, the
body (`logSysTemperatures()`) either completes or throws into the
tick-boundary catch, `elapsed` is the wall time the body consumed, and the
drift-corrected sleep runs in either case (lines 237–249). -/
def runTick (started : ℤ) (body : Except Unit Unit) (elapsed : ℤ) : TickRes :=
  { errorLogged := match body with | .error () => true | .ok () => false
    nextStart := started + elapsed + sleepFor elapsed }

/-- Start time of the n-th tick, for a run beginning at time 0 in which the
n-th tick's body outcome is `bodyF n` and consumes `elapsedF n` of wall
time.  Total in `n`: the loop never terminates and a tick exists for every
`n` whatever the body outcomes. -/
def tickStart (bodyF : ℕ → Except Unit Unit) (elapsedF : ℕ → ℤ) : ℕ → ℤ
  | 0 => 0
  | n + 1 => (runTick (tickStart bodyF elapsedF n) (bodyF n) (elapsedF n)).nextStart

/-- The top-level handler `main().catch(err => { logger.error; process.exit(1) })`
(lines 252–255): a failure of `main` itself — only possible before the loop
body's try/catch is reached, i.e. at startup — exits with status 1; otherwise
the process never exits (`none`). -/
def processExit (startupFails : Bool) : Option ℕ :=
  if startupFails then some 1 else none

/-! ## Specification-side companions

Definitions written from the spec's words, to be compared with the
source-derived ones above. -/

/-- From the spec: the contribution of one zone entry — "read its `type`
label and `temp` value (milli-Celsius integer) when both files exist and are
readable; keep the zone only if its type label matches (case-insensitive)
`cpu|x86_pkg|soc`", the reading being "the maximum converted Celsius value
(raw/1000)". -/
def specZoneReading (z : ZoneDir) : Option ℚ :=
  if startsWithS z.name "thermal_zone" then
    match z.typeFile, z.tempFile with
    | some (some t), some (some raw) =>
      if cpuZoneTypeMatch (trimS t) then
        match parseIntS (trimS raw) with
        | some milli => some ((milli : ℚ) / 1000)
        | none => none
      else none
    | _, _ => none
  else none

/-- The readings of the kept zones, in scan order. -/
def specZoneReadings : List ZoneDir → List ℚ
  | [] => []
  | z :: zs =>
    match specZoneReading z with
    | some q => q :: specZoneReadings zs
    | none => specZoneReadings zs

/-- Running maximum over the kept readings (the accumulator step of the
zone loop restricted to kept zones). -/
def maxStep (best : Option ℚ) (q : ℚ) : Option ℚ :=
  match best with
  | none => some q
  | some b => if b < q then some q else some b

/-! ## Order embedding for NaN-free JavaScript numbers -/

/-- NaN-free JavaScript numbers ordered as the rationals with `⊥ = -Infinity`
and `⊤ = +Infinity` (NaN, on which JavaScript comparisons are vacuous, is
mapped to `⊥` but every use is guarded by a NaN-freeness hypothesis). -/
def toOrd : JsNum → WithBot (WithTop ℚ)
  | .nan => ⊥
  | .ninf => ⊥
  | .inf => ((⊤ : WithTop ℚ) : WithBot (WithTop ℚ))
  | .fin q => ((q : WithTop ℚ) : WithBot (WithTop ℚ))

/-! ## Concrete fixtures used in statements and witnesses -/

/-- Zone `{type:"iwlwifi", temp:"30000"}`. -/
def zoneIwl : ZoneDir := ⟨"thermal_zone0", some (some "iwlwifi"), some (some "30000")⟩

/-- Zone `{type:"x86_pkg_temp", temp:"52000"}`. -/
def zoneX86 : ZoneDir := ⟨"thermal_zone1", some (some "x86_pkg_temp"), some (some "52000")⟩

/-- Zone `{type:"soc-thermal", temp:"48000"}`. -/
def zoneSoc : ZoneDir := ⟨"thermal_zone2", some (some "soc-thermal"), some (some "48000")⟩

/-- Zone typed `x86_pkg_temp` with raw `45000`. -/
def zoneX86of45 : ZoneDir := ⟨"thermal_zone0", some (some "x86_pkg_temp"), some (some "45000")⟩

/-- Zone typed `random-sensor` with raw `45000`. -/
def zoneRandom45 : ZoneDir := ⟨"thermal_zone0", some (some "random-sensor"), some (some "45000")⟩

/-- Non-Windows environment whose only data source is the zone triple. -/
def envZoneTriple : CpuEnv :=
  ⟨.ok none, false, none, .error (), .error (), some (.ok [zoneIwl, zoneX86, zoneSoc])⟩

/-- Non-Windows environment with `/sys/class/thermal` absent. -/
def envNoThermalTree : CpuEnv := ⟨.ok none, false, none, .error (), .error (), none⟩

/-- Windows environment whose only responding probe is the MSAcpi query,
answering `s`. -/
def envWmi (s : String) : CpuEnv := ⟨.ok none, true, none, .error (), .ok s, none⟩

/-- Environment in which `si.cpuTemperature()` reports `main = Infinity`. -/
def envSiInf : CpuEnv := ⟨.ok (some .inf), false, none, .error (), .error (), none⟩

/-- An LHM tree with one matching node, `CPU Package: 55`. -/
def packageTree : LhmNode :=
  .node (some "CPU") none (.cons (.node (some "CPU Package") (some (.fin 55)) .nil) .nil)

/-- Controller `{vendor:"NVIDIA", model:"RTX X", temperatureGpu:null}`. -/
def ctrlNvidia : Controller := ⟨"NVIDIA", "RTX X", none, none⟩

/-- GPU environment with the one NVIDIA controller and a CLI stub
returning `"67\n"`. -/
def gpuEnvNvidia : GpuEnv := ⟨.ok [ctrlNvidia], fun _ => .ok "67\n"⟩

/-- Controller `{vendor:"AMD", model:"Radeon", temperatureGpu:null}`. -/
def ctrlAmd : Controller := ⟨"AMD", "Radeon", none, none⟩

/-- GPU environment with the one AMD controller and no working CLI. -/
def gpuEnvAmd : GpuEnv := ⟨.ok [ctrlAmd], fun _ => .error ()⟩

end TempMon

namespace TempMon

/-! ## Helper lemmas -/

theorem jsGt_irrefl (a : JsNum) : jsGt a a = false := by
  cases a <;> simp [jsGt]

theorem jsGt_asymm {a b : JsNum} (h : jsGt a b = true) : jsGt b a = false := by
  cases a <;> cases b <;> simp_all [jsGt]
  linarith

theorem jsGt_le_trans {a b c : JsNum} (ha : a ≠ .nan) (hb : b ≠ .nan) (hc : c ≠ .nan)
    (hab : jsGt a b = false) (hbc : jsGt b c = false) : jsGt a c = false := by
  cases a <;> cases b <;> cases c <;> simp_all [jsGt]
  linarith

/-- Folding `jsUpd` from a NaN-free seed over a NaN-free list yields an
element that is a maximum for the JavaScript `>` comparison. -/
theorem foldl_jsUpd_some (vs : List JsNum) : ∀ b : JsNum, b ≠ .nan → JsNum.nan ∉ vs →
    ∃ m, vs.foldl jsUpd (some b) = some m ∧ (m = b ∨ m ∈ vs) ∧ m ≠ .nan ∧
      jsGt b m = false ∧ ∀ w ∈ vs, jsGt w m = false := by
  induction vs with
  | nil =>
    intro b hb _
    exact ⟨b, rfl, .inl rfl, hb, jsGt_irrefl b, by simp⟩
  | cons v tl ih =>
    intro b hb hvs
    rw [List.mem_cons] at hvs
    push_neg at hvs
    obtain ⟨hv, htl⟩ := hvs
    have hv' : v ≠ .nan := fun h => hv h.symm
    rw [List.foldl_cons]
    cases h : jsGt v b with
    | true =>
      obtain ⟨m, hm, hmem, hmn, hvm, hall⟩ := ih v hv' htl
      refine ⟨m, ?_, ?_, hmn, ?_, ?_⟩
      · simpa [jsUpd, h] using hm
      · exact hmem.elim (fun e => .inr (e ▸ List.mem_cons_self v tl))
          (fun e => .inr (List.mem_cons_of_mem v e))
      · exact jsGt_le_trans hb hv' hmn (jsGt_asymm h) hvm
      · intro w hw
        rcases List.mem_cons.mp hw with rfl | hw2
        · exact hvm
        · exact hall w hw2
    | false =>
      obtain ⟨m, hm, hmem, hmn, hbm, hall⟩ := ih b hb htl
      refine ⟨m, ?_, ?_, hmn, hbm, ?_⟩
      · simpa [jsUpd, h] using hm
      · exact hmem.elim .inl (fun e => .inr (List.mem_cons_of_mem v e))
      · intro w hw
        rcases List.mem_cons.mp hw with rfl | hw2
        · exact jsGt_le_trans hv' hb hmn h hbm
        · exact hall w hw2

/-- The full fold from the `null` seed: empty iff no values; otherwise a
maximum element of the list. -/
theorem foldl_jsUpd_none (vs : List JsNum) (hvs : JsNum.nan ∉ vs) :
    (vs.foldl jsUpd none = none ↔ vs = []) ∧
    ∀ m, vs.foldl jsUpd none = some m → m ∈ vs ∧ ∀ w ∈ vs, jsGt w m = false := by
  cases vs with
  | nil => exact ⟨by simp, fun m h => by simp [List.foldl] at h⟩
  | cons v tl =>
    rw [List.mem_cons] at hvs
    push_neg at hvs
    obtain ⟨hv, htl⟩ := hvs
    have hv' : v ≠ .nan := fun h => hv h.symm
    obtain ⟨m, hm, hmem, hmn, hvm, hall⟩ := foldl_jsUpd_some tl v hv' htl
    have hfold : (v :: tl).foldl jsUpd none = some m := by
      simpa [List.foldl_cons, jsUpd] using hm
    constructor
    · simp [hfold]
    · intro m2 hm2
      rw [hfold] at hm2
      obtain rfl : m = m2 := by injection hm2
      constructor
      · exact hmem.elim (fun e => e ▸ List.mem_cons_self v tl)
          (fun e => List.mem_cons_of_mem v e)
      · intro w hw
        rcases List.mem_cons.mp hw with rfl | hw2
        · exact hvm
        · exact hall w hw2

theorem lhmUpdate_eq_fold (best : Option JsNum) (tx : Option String) (v : Option JsNum) :
    lhmUpdate best tx v = (specNodeValue tx v).foldl jsUpd best := by
  cases tx with
  | none => cases v <;> rfl
  | some t =>
    cases v with
    | none => rfl
    | some w =>
      rw [lhmUpdate, specNodeValue]
      by_cases hc : (!t.isEmpty && lhmLabelMatch t) = true
      · simp [hc]
      · rw [Bool.not_eq_true] at hc
        simp [hc]

mutual
/-- `walk` computes the `jsUpd`-fold over the spec's collected values. -/
theorem lhmWalk_eq_fold (best : Option JsNum) (t : LhmNode) :
    lhmWalk best t = (specLhmValues t).foldl jsUpd best := by
  cases t with
  | node tx v cs =>
    rw [lhmWalk, specLhmValues, List.foldl_append, lhmForestWalk_eq_fold,
      lhmUpdate_eq_fold]
/-- Forest version of `lhmWalk_eq_fold`. -/
theorem lhmForestWalk_eq_fold (best : Option JsNum) (f : LhmForest) :
    lhmForestWalk best f = (specLhmForestValues f).foldl jsUpd best := by
  cases f with
  | nil => rfl
  | cons c cs =>
    rw [lhmForestWalk, specLhmForestValues, List.foldl_append,
      lhmWalk_eq_fold, lhmForestWalk_eq_fold]
end

/-- One zone-loop step agrees with the spec-side reading of the entry. -/
theorem zoneStep_eq_spec (best : Option ℚ) (z : ZoneDir)
    (h : startsWithS z.name "thermal_zone" = true) :
    zoneStep best z =
      (match specZoneReading z with
       | some q => maxStep best q
       | none => best) := by
  rcases z with ⟨name, tf, pf⟩
  rw [specZoneReading]
  simp only [h, if_true]
  rcases tf with _ | tf1
  · rcases pf with _ | pf1 <;> rfl
  · rcases tf1 with _ | t
    · rcases pf with _ | pf1 <;> rfl
    · rcases pf with _ | pf1
      · rfl
      · rcases pf1 with _ | raw
        · by_cases hm : cpuZoneTypeMatch (trimS t) = true
          · simp [zoneStep, hm]
          · rw [Bool.not_eq_true] at hm
            simp [zoneStep, hm]
        · by_cases hm : cpuZoneTypeMatch (trimS t) = true
          · simp only [zoneStep, hm, if_true]
            cases hp : parseIntS (trimS raw) with
            | none => simp
            | some milli => simp [maxStep]
          · rw [Bool.not_eq_true] at hm
            simp [zoneStep, hm]

/-- The zone scan is the `maxStep`-fold over the spec-side readings. -/
theorem scanZones_eq_spec (entries : List ZoneDir) :
    scanZones entries = (specZoneReadings entries).foldl maxStep none := by
  rw [scanZones]
  generalize none = best
  induction entries generalizing best with
  | nil => rfl
  | cons z zs ih =>
    cases h : startsWithS z.name "thermal_zone" with
    | true =>
      rw [List.filter_cons_of_pos (by simpa using h), List.foldl_cons,
        zoneStep_eq_spec best z h, specZoneReadings]
      cases hr : specZoneReading z with
      | some q =>
        simp only
        rw [List.foldl_cons]
        exact ih _
      | none =>
        simp only
        exact ih _
    | false =>
      have hn : specZoneReading z = none := by
        rw [specZoneReading]
        simp [h]
      rw [List.filter_cons_of_neg (by simpa using h), specZoneReadings]
      simp only [hn]
      exact ih best

/-- Folding `maxStep` from a seed yields the maximum of seed and list. -/
theorem foldl_maxStep_some (qs : List ℚ) : ∀ b : ℚ,
    ∃ m, qs.foldl maxStep (some b) = some m ∧ (m = b ∨ m ∈ qs) ∧ b ≤ m ∧
      ∀ q ∈ qs, q ≤ m := by
  induction qs with
  | nil => exact fun b => ⟨b, rfl, .inl rfl, le_refl b, by simp⟩
  | cons v tl ih =>
    intro b
    rw [List.foldl_cons]
    cases h : decide (b < v) with
    | true =>
      obtain ⟨m, hm, hmem, hvm, hall⟩ := ih v
      have hb : b < v := of_decide_eq_true h
      refine ⟨m, ?_, ?_, le_of_lt (lt_of_lt_of_le hb hvm), ?_⟩
      · simpa [maxStep, hb] using hm
      · exact hmem.elim (fun e => .inr (e ▸ List.mem_cons_self v tl))
          (fun e => .inr (List.mem_cons_of_mem v e))
      · intro q hq
        rcases List.mem_cons.mp hq with rfl | hq2
        · exact hvm
        · exact hall q hq2
    | false =>
      obtain ⟨m, hm, hmem, hbm, hall⟩ := ih b
      have hb : ¬ b < v := of_decide_eq_false h
      refine ⟨m, ?_, ?_, hbm, ?_⟩
      · simpa [maxStep, hb] using hm
      · exact hmem.elim .inl (fun e => .inr (List.mem_cons_of_mem v e))
      · intro q hq
        rcases List.mem_cons.mp hq with rfl | hq2
        · exact le_trans (le_of_not_lt hb) hbm
        · exact hall q hq2

/-- The full `maxStep` fold from the `null` seed: empty iff no readings;
otherwise the maximum reading. -/
theorem foldl_maxStep_none (qs : List ℚ) :
    (qs.foldl maxStep none = none ↔ qs = []) ∧
    ∀ m, qs.foldl maxStep none = some m → m ∈ qs ∧ ∀ q ∈ qs, q ≤ m := by
  cases qs with
  | nil => exact ⟨by simp, fun m h => by simp [List.foldl] at h⟩
  | cons v tl =>
    obtain ⟨m, hm, hmem, hvm, hall⟩ := foldl_maxStep_some tl v
    have hfold : (v :: tl).foldl maxStep none = some m := by
      simpa [List.foldl_cons, maxStep] using hm
    constructor
    · simp [hfold]
    · intro m2 hm2
      rw [hfold] at hm2
      obtain rfl : m = m2 := by injection hm2
      constructor
      · exact hmem.elim (fun e => e ▸ List.mem_cons_self v tl)
          (fun e => List.mem_cons_of_mem v e)
      · intro q hq
        rcases List.mem_cons.mp hq with rfl | hq2
        · exact hvm
        · exact hall q hq2

end TempMon

namespace TempMon

/-- `Value`-field NaN-freeness of a single node. -/
theorem lhmNanFree_value {tx : Option String} {v : Option JsNum} {cs : LhmForest}
    (h : lhmNanFree (.node tx v cs) = true) :
    v ≠ some JsNum.nan ∧ lhmForestNanFree cs = true := by
  rw [lhmNanFree] at h
  obtain ⟨hv, hcs⟩ := Bool.and_eq_true_iff.mp h
  refine ⟨?_, hcs⟩
  intro he
  rw [he] at hv
  simp [valueNanFree] at hv

mutual
/-- A NaN-free snapshot collects no NaN among its matching values. -/
theorem lhmNanFree_spec (t : LhmNode) (h : lhmNanFree t = true) :
    JsNum.nan ∉ specLhmValues t := by
  cases t with
  | node tx v cs =>
    obtain ⟨hv, hcs⟩ := lhmNanFree_value h
    rw [specLhmValues]
    intro hmem
    rcases List.mem_append.mp hmem with hm | hm
    · refine hv ?_
      cases tx with
      | none => simp [specNodeValue] at hm
      | some txt =>
        cases v with
        | none => simp [specNodeValue] at hm
        | some val =>
          rw [specNodeValue] at hm
          split at hm
          · rw [List.mem_singleton] at hm
            rw [← hm]
          · simp at hm
    · exact lhmForestNanFree_spec cs hcs hm
/-- Forest version of `lhmNanFree_spec`. -/
theorem lhmForestNanFree_spec (f : LhmForest) (h : lhmForestNanFree f = true) :
    JsNum.nan ∉ specLhmForestValues f := by
  cases f with
  | nil => simp [specLhmForestValues]
  | cons c cs =>
    rw [lhmForestNanFree] at h
    obtain ⟨hc, hcs⟩ := Bool.and_eq_true_iff.mp h
    rw [specLhmForestValues]
    intro hmem
    rcases List.mem_append.mp hmem with hm | hm
    · exact lhmNanFree_spec c hc hm
    · exact lhmForestNanFree_spec cs hcs hm
end

/-- The library strategy filters NaN, so it never yields NaN. -/
theorem strat1_ne_nan (e : CpuEnv) : strat1 e ≠ some JsNum.nan := by
  rw [strat1]
  cases e.siMain with
  | error u => cases u; simp
  | ok mv =>
    cases mv with
    | none => simp
    | some v => cases v <;> simp [JsNum.isNaNb]

/-- `parseFloat` yields NaN (`none`), an infinity, or a finite value —
never `some JsNum.nan`. -/
theorem parseFloatBody_ne_nan (neg : Bool) (cs : List Char) :
    parseFloatBody neg cs ≠ some JsNum.nan := by
  rw [parseFloatBody]
  split
  · cases neg <;> simp
  · cases pfMantissa cs with
    | none => simp
    | some p =>
      rcases p with ⟨q, r⟩
      simp

/-- String version of `parseFloatBody_ne_nan`. -/
theorem parseFloatS_ne_nan (s : String) : parseFloatS s ≠ some JsNum.nan := by
  rw [parseFloatS]
  split
  · exact parseFloatBody_ne_nan true _
  · exact parseFloatBody_ne_nan false _
  · exact parseFloatBody_ne_nan false _

/-- The OHM strategy rejects NaN, so it never yields NaN. -/
theorem stratOhm_ne_nan (e : CpuEnv) : stratOhm e ≠ some JsNum.nan := by
  rw [stratOhm]
  cases e.ohm with
  | error u => cases u; simp
  | ok outRaw =>
    show (if (trimS outRaw).isEmpty then none
          else
            match parseFloatS (trimS outRaw) with
            | none => none
            | some v => some v) ≠ some JsNum.nan
    split
    · simp
    · cases hp : parseFloatS (trimS outRaw) with
      | none => simp
      | some v =>
        simp only [ne_eq, Option.some.injEq]
        intro h
        rw [h] at hp
        exact parseFloatS_ne_nan (trimS outRaw) hp

/-- The ACPI strategy yields `none`, or `some` of a finite rounded value. -/
theorem stratWmi_shape (e : CpuEnv) :
    stratWmi e = none ∨ ∃ q, stratWmi e = some (JsNum.fin q) := by
  rw [stratWmi]
  cases e.wmi with
  | error u => cases u; exact .inl rfl
  | ok rawOut =>
    dsimp only
    split
    · exact .inl rfl
    · split
      · exact .inl rfl
      · split
        · split
          · exact .inr ⟨_, rfl⟩
          · exact .inl rfl
        · exact .inl rfl

/-- The ACPI strategy never yields NaN. -/
theorem stratWmi_ne_nan (e : CpuEnv) : stratWmi e ≠ some JsNum.nan := by
  rcases stratWmi_shape e with h | ⟨q, h⟩ <;> rw [h] <;> simp

/-- The zone scan yields only finite values, never NaN. -/
theorem stratZones_ne_nan (e : CpuEnv) : stratZones e ≠ some JsNum.nan := by
  rw [stratZones]
  cases e.thermalRoot with
  | none => simp
  | some r =>
    cases r with
    | error u => cases u; simp
    | ok entries =>
      cases scanZones entries with
      | none => simp
      | some q => simp

/-- On a realizable (NaN-free) snapshot the JSON-walk strategy never
yields NaN. -/
theorem stratLhm_ne_nan (e : CpuEnv)
    (hreal : ∀ t2, e.lhm = some (.ok t2) → lhmNanFree t2 = true) :
    stratLhm e ≠ some JsNum.nan := by
  rw [stratLhm]
  cases hl : e.lhm with
  | none => simp
  | some r =>
    cases r with
    | error u => cases u; simp
    | ok t =>
      show lhmWalk none t ≠ some JsNum.nan
      have hnf : lhmNanFree t = true := hreal t (by rw [hl])
      have hnot : JsNum.nan ∉ specLhmValues t := lhmNanFree_spec t hnf
      cases hw : lhmWalk none t with
      | none => simp
      | some m =>
        obtain ⟨hmem, _⟩ := (foldl_jsUpd_none (specLhmValues t) hnot).2 m
          (by rw [← lhmWalk_eq_fold]; exact hw)
        simp only [ne_eq, Option.some.injEq]
        intro h
        rw [h] at hmem
        exact hnot hmem

/-- Evaluation of the zone scan on the spec's three-zone example. -/
theorem scanZones_triple_eval : scanZones [zoneIwl, zoneX86, zoneSoc] = some 52 := by
  have hf : List.filter (fun z => startsWithS z.name "thermal_zone")
      [zoneIwl, zoneX86, zoneSoc] = [zoneIwl, zoneX86, zoneSoc] := by decide
  have h1 : zoneStep none zoneIwl = none := by decide
  rw [scanZones, hf]
  simp only [List.foldl, h1]
  have m2 : parseIntS (trimS "52000") = some 52000 := by decide
  have m3 : parseIntS (trimS "48000") = some 48000 := by decide
  have t2 : cpuZoneTypeMatch (trimS "x86_pkg_temp") = true := by decide
  have t3 : cpuZoneTypeMatch (trimS "soc-thermal") = true := by decide
  simp only [zoneStep, zoneX86, zoneSoc, t2, t3, m2, m3]
  norm_num

/-! ## The claims -/

/-- Claim C1 (amended): the CPU resolver returns a value exactly when at
least one strategy of its probe chain yields a value passing that
strategy's own acceptance check, and the returned value is one of the
strategies' yields; the returned value is never NaN (every NaN source is
filtered, and an LHM snapshot, being `JSON.parse` output, never carries a
NaN value — the `lhmNanFree` hypothesis).  But the checks do not enforce
finiteness or the plausible range: the library strategy rejects only NaN,
so ±Infinity passes, and only the ACPI strategy enforces `(-50, 150)`. -/
theorem cpu_resolver_chain_characterization (e : CpuEnv) :
    ((getCpuTemperature e).isSome =
      ((strat1 e).isSome ||
        (e.win32 && ((stratLhm e).isSome || (stratOhm e).isSome || (stratWmi e).isSome)) ||
        (stratZones e).isSome)) ∧
    (∀ v, getCpuTemperature e = some v →
      strat1 e = some v ∨ stratLhm e = some v ∨ stratOhm e = some v ∨
      stratWmi e = some v ∨ stratZones e = some v) ∧
    ((∀ t2, e.lhm = some (.ok t2) → lhmNanFree t2 = true) →
      getCpuTemperature e ≠ some JsNum.nan) := by
  have hAB : ((getCpuTemperature e).isSome =
      ((strat1 e).isSome ||
        (e.win32 && ((stratLhm e).isSome || (stratOhm e).isSome || (stratWmi e).isSome)) ||
        (stratZones e).isSome)) ∧
      ∀ v, getCpuTemperature e = some v →
        strat1 e = some v ∨ stratLhm e = some v ∨ stratOhm e = some v ∨
        stratWmi e = some v ∨ stratZones e = some v := by
    simp only [getCpuTemperature, winChain]
    cases h1 : strat1 e <;> cases hw : e.win32 <;> cases hl : stratLhm e <;>
      cases ho : stratOhm e <;> cases hm : stratWmi e <;> cases hz : stratZones e <;>
      constructor <;> simp_all
  refine ⟨hAB.1, hAB.2, ?_⟩
  intro hreal hnan
  rcases hAB.2 JsNum.nan hnan with h | h | h | h | h
  · exact strat1_ne_nan e h
  · exact stratLhm_ne_nan e hreal h
  · exact stratOhm_ne_nan e h
  · exact stratWmi_ne_nan e h
  · exact stratZones_ne_nan e h

/-- Claim C1, counterexample to the claim as stated: when the library
reports `main = Infinity` — accepted because the code checks only
`Number.isNaN` — the resolver returns Infinity, so a value is returned
although no strategy yielded a finite float in the plausible range, and
the returned value is infinite. -/
theorem cpu_resolver_returns_infinite :
    getCpuTemperature envSiInf = some JsNum.inf ∧ ∀ q : ℚ, JsNum.inf ≠ JsNum.fin q :=
  ⟨rfl, fun _ h => JsNum.noConfusion h⟩

/-- Claim C1, witness: the chain characterization applied to the
Infinity-reporting environment, whose LHM snapshot is absent (so trivially
NaN-free). -/
theorem cpu_resolver_chain_characterization_witness :
    (strat1 envSiInf = some JsNum.inf ∨ stratLhm envSiInf = some JsNum.inf ∨
      stratOhm envSiInf = some JsNum.inf ∨ stratWmi envSiInf = some JsNum.inf ∨
      stratZones envSiInf = some JsNum.inf) ∧
    getCpuTemperature envSiInf ≠ some JsNum.nan :=
  ⟨(cpu_resolver_chain_characterization envSiInf).2.1 JsNum.inf rfl,
   (cpu_resolver_chain_characterization envSiInf).2.2 (fun _ h => nomatch h)⟩

/-- Claim C2 (amended): the ACPI strategy interprets the raw integer as
tenths of Kelvin, converts via `C = raw/10 − 273.15`, accepts the result
only if it lies strictly in `(-50, 150)` and rounds it to one decimal; in
particular raw=3281 converts to 54.95 °C and is returned as 55.0 °C, while
raw=0 or a negative raw is rejected and the strategy yields nothing. -/
theorem wmi_deci_kelvin_conversion (e : CpuEnv) (raw : String) (val : ℤ)
    (hw : e.wmi = .ok raw) (hne : (trimS raw).isEmpty = false)
    (hp : parseIntS (trimS raw) = some val) :
    (stratWmi e =
      if 0 < val ∧ -50 < (val : ℚ) / 10 - 27315 / 100 ∧
          (val : ℚ) / 10 - 27315 / 100 < 150
      then some (JsNum.fin (toFixed1 ((val : ℚ) / 10 - 27315 / 100)))
      else none) ∧
    stratWmi (envWmi "3281") = some (JsNum.fin 55) ∧
    toFixed1 ((3281 : ℚ) / 10 - 27315 / 100) = 55 ∧
    stratWmi (envWmi "0") = none ∧
    stratWmi (envWmi "-5") = none := by
  refine ⟨?_, ?_, ?_, by decide, by decide⟩
  · rw [stratWmi, hw]
    simp only [hne, Bool.false_eq_true, if_false, hp]
    by_cases h0 : 0 < val
    · simp only [h0, if_true, true_and]
    · rw [if_neg h0, if_neg (fun hc => h0 hc.1)]
  · have h1 : trimS "3281" = "3281" := by decide
    have h2 : ("3281" : String).isEmpty = false := by decide
    have h3 : parseIntS "3281" = some 3281 := by decide
    simp only [stratWmi, envWmi, h1, h2, h3]
    norm_num [toFixed1, round_eq]
  · rw [toFixed1]
    norm_num [round_eq]

/-- Claim C2, counterexample to the claim as stated: raw=3281 converts to
`3281/10 − 273.15 = 54.95`, not 55.05, and the strategy returns 55.0 °C,
not 55.1 °C. -/
theorem wmi_raw3281_yields_55_0_not_55_1 :
    stratWmi (envWmi "3281") = some (JsNum.fin 55) ∧
    (3281 : ℚ) / 10 - 27315 / 100 = 5495 / 100 ∧
    ((5495 : ℚ) / 100 ≠ 5505 / 100) ∧
    (JsNum.fin 55 ≠ JsNum.fin (551 / 10)) := by
  refine ⟨?_, by norm_num, by norm_num, ?_⟩
  · have h1 : trimS "3281" = "3281" := by decide
    have h2 : ("3281" : String).isEmpty = false := by decide
    have h3 : parseIntS "3281" = some 3281 := by decide
    simp only [stratWmi, envWmi, h1, h2, h3]
    norm_num [toFixed1, round_eq]
  · simp only [ne_eq, JsNum.fin.injEq]
    norm_num

/-- Claim C2, witness: the conversion theorem applied at raw=3281. -/
theorem wmi_deci_kelvin_conversion_witness :
    (stratWmi (envWmi "3281") =
      if 0 < (3281 : ℤ) ∧ -50 < ((3281 : ℤ) : ℚ) / 10 - 27315 / 100 ∧
          ((3281 : ℤ) : ℚ) / 10 - 27315 / 100 < 150
      then some (JsNum.fin (toFixed1 (((3281 : ℤ) : ℚ) / 10 - 27315 / 100)))
      else none) ∧
    stratWmi (envWmi "3281") = some (JsNum.fin 55) ∧
    toFixed1 ((3281 : ℚ) / 10 - 27315 / 100) = 55 ∧
    stratWmi (envWmi "0") = none ∧
    stratWmi (envWmi "-5") = none :=
  wmi_deci_kelvin_conversion (envWmi "3281") "3281" 3281 rfl (by decide) (by decide)

/-- Claim C3: an error escaping the resolvers during a tick is caught at
the tick boundary and logged at error severity; the next tick starts at
`intervalMs` after the original tick start whenever the tick's wall time is
at most the interval (the elapsed time being measured from the tick start
even for a failing tick); the tick schedule does not depend on body
failures at all; and only a startup failure exits the process, with
status 1. -/
theorem tick_failure_isolation (bodyF : ℕ → Except Unit Unit) (elapsedF : ℕ → ℤ)
    (n : ℕ) :
    ((runTick (tickStart bodyF elapsedF n) (bodyF n) (elapsedF n)).errorLogged = true ↔
      bodyF n = .error ()) ∧
    (0 ≤ elapsedF n → elapsedF n ≤ intervalMs →
      tickStart bodyF elapsedF (n + 1) = tickStart bodyF elapsedF n + intervalMs) ∧
    tickStart bodyF elapsedF n = tickStart (fun _ => .ok ()) elapsedF n ∧
    processExit true = some 1 ∧ processExit false = none := by
  refine ⟨?_, ?_, ?_, rfl, rfl⟩
  · cases h : bodyF n with
    | error u => cases u; simp [runTick, h]
    | ok u => cases u; simp [runTick, h]
  · intro h0 hle
    have hs : sleepFor (elapsedF n) = intervalMs - elapsedF n := by
      rw [sleepFor]
      split_ifs <;> omega
    show tickStart bodyF elapsedF n + elapsedF n + sleepFor (elapsedF n) = _
    rw [hs]
    ring
  · induction n with
    | zero => rfl
    | succ k ih =>
      show tickStart bodyF elapsedF k + elapsedF k + sleepFor (elapsedF k) =
        tickStart (fun _ => .ok ()) elapsedF k + elapsedF k + sleepFor (elapsedF k)
      rw [ih]

/-- Claim C3, witness: a run whose every tick body throws after 100 ms of
work still logs the tick error and starts tick 1 exactly 30000 ms in. -/
theorem tick_failure_isolation_witness :
    (runTick (tickStart (fun _ => Except.error ()) (fun _ => 100) 0)
      ((fun _ => Except.error ()) 0) ((fun _ => (100 : ℤ)) 0)).errorLogged = true ∧
    tickStart (fun _ => Except.error ()) (fun _ => 100) 1 = 30000 :=
  ⟨(tick_failure_isolation (fun _ => Except.error ()) (fun _ => 100) 0).1.mpr rfl,
   by
    rw [(tick_failure_isolation (fun _ => Except.error ()) (fun _ => 100) 0).2.1
      (by decide) (by decide)]
    rfl⟩

/-- Claim C4: a zone contributes to the kernel thermal-zone fallback
exactly when it is a readable `thermal_zone*` entry whose type label
case-insensitively matches `cpu|x86_pkg|soc` and whose temp parses; each
kept zone's reading is its milli-Celsius value divided by 1000, and the
scan returns the maximum reading over kept zones or absent when none is
kept; on the spec's three-zone example the resolver returns 52.0, a zone
typed `x86_pkg_temp` with raw 45000 yields 45.0 while the same raw on a
zone typed `random-sensor` is excluded, and an absent zone tree yields
absent. -/
theorem zone_scan_max_of_matches (entries : List ZoneDir) :
    (scanZones entries = none ↔ specZoneReadings entries = []) ∧
    (∀ m, scanZones entries = some m →
      m ∈ specZoneReadings entries ∧ ∀ q ∈ specZoneReadings entries, q ≤ m) ∧
    scanZones [zoneX86of45] = some 45 ∧
    scanZones [zoneRandom45] = none ∧
    getCpuTemperature envZoneTriple = some (JsNum.fin 52) ∧
    getCpuTemperature envNoThermalTree = none := by
  obtain ⟨hiff, hmax⟩ := foldl_maxStep_none (specZoneReadings entries)
  refine ⟨?_, ?_, ?_, by decide, ?_, rfl⟩
  · rw [scanZones_eq_spec]
    exact hiff
  · intro m hm
    exact hmax m (by rwa [← scanZones_eq_spec])
  · have hf : List.filter (fun z => startsWithS z.name "thermal_zone")
        [zoneX86of45] = [zoneX86of45] := by decide
    rw [scanZones, hf]
    have m1 : parseIntS (trimS "45000") = some 45000 := by decide
    have t1 : cpuZoneTypeMatch (trimS "x86_pkg_temp") = true := by decide
    simp only [List.foldl, zoneStep, zoneX86of45, t1, m1]
    norm_num
  · have hsz : stratZones envZoneTriple = some (JsNum.fin 52) := by
      show (scanZones [zoneIwl, zoneX86, zoneSoc]).map JsNum.fin = _
      rw [scanZones_triple_eval]
      rfl
    have h1 : strat1 envZoneTriple = none := rfl
    have hw : envZoneTriple.win32 = false := rfl
    simp only [getCpuTemperature, winChain, h1, hw, hsz]
    rfl

/-- Claim C4, witness: the maximality statement applied to the three-zone
example, whose scan evaluates to 52. -/
theorem zone_scan_max_of_matches_witness :
    (52 : ℚ) ∈ specZoneReadings [zoneIwl, zoneX86, zoneSoc] ∧
    ∀ q ∈ specZoneReadings [zoneIwl, zoneX86, zoneSoc], q ≤ 52 :=
  (zone_scan_max_of_matches [zoneIwl, zoneX86, zoneSoc]).2.1 52 scanZones_triple_eval

/-- Claim C5: the vendor-CLI fallback runs exactly when the
library-reported GPU temperature is absent and the vendor+model string
case-insensitively contains "nvidia"; on success the first output line is
parsed as an integer, the temperature is overwritten and the source marked
`nvidia-smi`; on any failure the temperature stays absent with the default
source; and the spec's one-controller example yields
`{model:"RTX X", temperatureGpu:67, source:"nvidia-smi"}`. -/
theorem gpu_vendor_cli_fallback (smiRes : Except Unit String) (c : Controller) :
    (¬(libNumber c.temperatureGpu = none ∧ nvidiaMatch c.vendor c.model = true) →
      (resolveController smiRes c).temperatureGpu = libNumber c.temperatureGpu ∧
      (resolveController smiRes c).source = "systeminformation") ∧
    (libNumber c.temperatureGpu = none → nvidiaMatch c.vendor c.model = true →
      (∀ n, smiParse smiRes = some n →
        (resolveController smiRes c).temperatureGpu = some (JsNum.fin (n : ℚ)) ∧
        (resolveController smiRes c).source = "nvidia-smi") ∧
      (smiParse smiRes = none →
        (resolveController smiRes c).temperatureGpu = none ∧
        (resolveController smiRes c).source = "systeminformation")) ∧
    getGpuTemperatures gpuEnvNvidia =
      [⟨"RTX X", some (JsNum.fin 67), none, "nvidia-smi"⟩] := by
  refine ⟨?_, ?_, ?_⟩
  · intro hn
    have hcond : ((libNumber c.temperatureGpu).isNone &&
        nvidiaMatch c.vendor c.model) = false := by
      rcases hl : libNumber c.temperatureGpu with _ | v
      · cases hm : nvidiaMatch c.vendor c.model
        · simp
        · exact absurd ⟨hl, hm⟩ hn
      · simp
    constructor <;> simp [resolveController, hcond]
  · intro hl hm
    have hcond : ((libNumber c.temperatureGpu).isNone &&
        nvidiaMatch c.vendor c.model) = true := by
      simp [hl, hm]
    constructor
    · intro n hn
      constructor <;> simp [resolveController, hcond, hn]
    · intro hn
      constructor <;> simp [resolveController, hcond, hn, hl]
  · decide

/-- Claim C5, witness: the fallback theorem applied to the NVIDIA
controller with the CLI stub answering `"67\n"`. -/
theorem gpu_vendor_cli_fallback_witness :
    (resolveController (.ok "67\n") ctrlNvidia).temperatureGpu =
      some (JsNum.fin ((67 : ℤ) : ℚ)) ∧
    (resolveController (.ok "67\n") ctrlNvidia).source = "nvidia-smi" :=
  ((gpu_vendor_cli_fallback (.ok "67\n") ctrlNvidia).2.1 rfl (by decide)).1 67 (by decide)

/-- Claim C6 (amended): every emitted source tag is `systeminformation`
(the primary-library tag) or `nvidia-smi` (the vendor-CLI tag); it is
`nvidia-smi` exactly when the vendor CLI supplied the temperature, and
otherwise it is `systeminformation` even when no strategy produced a
value — the `unknown` tag is never emitted. -/
theorem gpu_source_tag (smiRes : Except Unit String) (c : Controller) :
    ((resolveController smiRes c).source = "systeminformation" ∨
      (resolveController smiRes c).source = "nvidia-smi") ∧
    ((resolveController smiRes c).source = "nvidia-smi" →
      libNumber c.temperatureGpu = none ∧ nvidiaMatch c.vendor c.model = true ∧
      ∃ n, smiParse smiRes = some n ∧
        (resolveController smiRes c).temperatureGpu = some (JsNum.fin (n : ℚ))) ∧
    ((resolveController smiRes c).source = "systeminformation" →
      (resolveController smiRes c).temperatureGpu = libNumber c.temperatureGpu) := by
  by_cases hcond : ((libNumber c.temperatureGpu).isNone &&
      nvidiaMatch c.vendor c.model) = true
  · obtain ⟨hl, hm⟩ := Bool.and_eq_true_iff.mp hcond
    rw [Option.isNone_iff_eq_none] at hl
    cases hs : smiParse smiRes with
    | some n =>
      have h2 : (resolveController smiRes c).source = "nvidia-smi" := by
        simp [resolveController, hcond, hs]
      have h1 : (resolveController smiRes c).temperatureGpu =
          some (JsNum.fin (n : ℚ)) := by
        simp [resolveController, hcond, hs]
      refine ⟨.inr h2, fun _ => ⟨hl, hm, n, rfl, h1⟩, fun h => ?_⟩
      rw [h2] at h
      exact absurd h (by decide)
    | none =>
      have h2 : (resolveController smiRes c).source = "systeminformation" := by
        simp [resolveController, hcond, hs]
      have h1 : (resolveController smiRes c).temperatureGpu =
          libNumber c.temperatureGpu := by
        simp [resolveController, hcond, hs, hl]
      refine ⟨.inl h2, fun h => ?_, fun _ => h1⟩
      rw [h2] at h
      exact absurd h (by decide)
  · rw [Bool.not_eq_true] at hcond
    have h2 : (resolveController smiRes c).source = "systeminformation" := by
      simp [resolveController, hcond]
    have h1 : (resolveController smiRes c).temperatureGpu =
        libNumber c.temperatureGpu := by
      simp [resolveController, hcond]
    refine ⟨.inl h2, fun h => ?_, fun _ => h1⟩
    rw [h2] at h
    exact absurd h (by decide)

/-- Claim C6, counterexample to the claim as stated: an AMD controller
with no library temperature and no CLI yields an absent temperature — no
strategy produced a value — yet its source tag is `systeminformation`,
not `unknown`. -/
theorem gpu_source_never_unknown :
    getGpuTemperatures gpuEnvAmd = [⟨"Radeon", none, none, "systeminformation"⟩] ∧
    (getGpuTemperatures gpuEnvAmd).map GpuTempInfo.source = ["systeminformation"] ∧
    "systeminformation" ≠ "unknown" :=
  ⟨rfl, rfl, by decide⟩

/-- Claim C6, witness: the tag theorem applied to the AMD controller whose
emitted tag is the default. -/
theorem gpu_source_tag_witness :
    (resolveController (Except.error ()) ctrlAmd).temperatureGpu =
      libNumber ctrlAmd.temperatureGpu :=
  (gpu_source_tag (Except.error ()) ctrlAmd).2.2 rfl

/-- Claim C7: the exported-JSON strategy walks the whole node tree and, on
a NaN-free snapshot, returns a matching node's value that no matching value
exceeds (absent when no node matches), the matching labels being the
case-insensitive `tctl|tdie|package|cpu temp|ccd|core (tctl/tdie)` ones;
a malformed snapshot, or one with no matching node, leaves the resolver
exactly as if the snapshot were absent, so the chain continues with the
next strategy. -/
theorem lhm_walk_max_of_matches (t : LhmNode) :
    (specLhmValues t = [] → lhmWalk none t = none) ∧
    (JsNum.nan ∉ specLhmValues t →
      ∀ m, lhmWalk none t = some m →
        m ∈ specLhmValues t ∧ ∀ w ∈ specLhmValues t, jsGt w m = false) ∧
    (JsNum.nan ∉ specLhmValues t → specLhmValues t ≠ [] →
      ∃ m, lhmWalk none t = some m) ∧
    (∀ e, e.lhm = some (.error ()) →
      getCpuTemperature e = getCpuTemperature { e with lhm := none }) ∧
    (∀ e, (∃ t2, e.lhm = some (.ok t2) ∧ lhmWalk none t2 = none) →
      getCpuTemperature e = getCpuTemperature { e with lhm := none }) := by
  refine ⟨?_, ?_, ?_, ?_, ?_⟩
  · intro h
    rw [lhmWalk_eq_fold, h]
    rfl
  · intro hnan m hm
    rw [lhmWalk_eq_fold] at hm
    exact (foldl_jsUpd_none (specLhmValues t) hnan).2 m hm
  · intro hnan hne
    rcases hw : lhmWalk none t with _ | m
    · rw [lhmWalk_eq_fold] at hw
      exact absurd ((foldl_jsUpd_none (specLhmValues t) hnan).1.mp hw) hne
    · exact ⟨m, rfl⟩
  · intro e h
    have hl : stratLhm e = none := by rw [stratLhm, h]
    have hl2 : stratLhm { e with lhm := none } = none := rfl
    have h1 : strat1 { e with lhm := none } = strat1 e := rfl
    have ho : stratOhm { e with lhm := none } = stratOhm e := rfl
    have hm : stratWmi { e with lhm := none } = stratWmi e := rfl
    have hz : stratZones { e with lhm := none } = stratZones e := rfl
    have hw : ({ e with lhm := none } : CpuEnv).win32 = e.win32 := rfl
    simp only [getCpuTemperature, winChain, hl, hl2, h1, ho, hm, hz, hw]
  · intro e h
    obtain ⟨t2, ht, hwalk⟩ := h
    have hl : stratLhm e = none := by
      rw [stratLhm, ht]
      exact hwalk
    have hl2 : stratLhm { e with lhm := none } = none := rfl
    have h1 : strat1 { e with lhm := none } = strat1 e := rfl
    have ho : stratOhm { e with lhm := none } = stratOhm e := rfl
    have hm : stratWmi { e with lhm := none } = stratWmi e := rfl
    have hz : stratZones { e with lhm := none } = stratZones e := rfl
    have hw : ({ e with lhm := none } : CpuEnv).win32 = e.win32 := rfl
    simp only [getCpuTemperature, winChain, hl, hl2, h1, ho, hm, hz, hw]

/-- Claim C7, witness: the walk theorem applied to a snapshot whose only
matching node is `CPU Package: 55`. -/
theorem lhm_walk_max_of_matches_witness :
    JsNum.fin 55 ∈ specLhmValues packageTree ∧
    ∀ w ∈ specLhmValues packageTree, jsGt w (JsNum.fin 55) = false :=
  (lhm_walk_max_of_matches packageTree).2.1 (by decide) (JsNum.fin 55) (by decide)

/-- Claim C8: neither resolver ever raises — every probe failure makes its
strategy yield nothing (so the all-failures environment resolves to
absent), and the GPU enumerator emits one record per detected controller,
degenerating to the empty sequence when enumeration itself fails. -/
theorem resolvers_never_raise (e : CpuEnv) (g : GpuEnv) :
    strat1 { e with siMain := .error () } = none ∧
    stratLhm { e with lhm := some (.error ()) } = none ∧
    stratOhm { e with ohm := .error () } = none ∧
    stratWmi { e with wmi := .error () } = none ∧
    stratZones { e with thermalRoot := some (.error ()) } = none ∧
    stratZones { e with thermalRoot := none } = none ∧
    getCpuTemperature { e with
      siMain := .error (), lhm := some (.error ()),
      ohm := .error (), wmi := .error (), thermalRoot := some (.error ()) } = none ∧
    (g.graphics = .error () → getGpuTemperatures g = []) ∧
    ∀ cs, g.graphics = .ok cs → (getGpuTemperatures g).length = cs.length := by
  refine ⟨rfl, rfl, rfl, rfl, rfl, rfl, ?_, ?_, ?_⟩
  · cases hw : e.win32 <;>
      simp [getCpuTemperature, winChain, strat1, stratLhm, stratOhm, stratWmi,
        stratZones, hw]
  · intro h
    rw [getGpuTemperatures, h]
  · intro cs h
    rw [getGpuTemperatures, h]
    simp

/-- Claim C8, witness: a failing enumeration yields the empty sequence,
and a one-controller enumeration yields one record. -/
theorem resolvers_never_raise_witness :
    getGpuTemperatures ⟨.error (), fun _ => .error ()⟩ = [] ∧
    (getGpuTemperatures gpuEnvAmd).length = [ctrlAmd].length :=
  ⟨(resolvers_never_raise envNoThermalTree
      ⟨.error (), fun _ => .error ()⟩).2.2.2.2.2.2.2.1 rfl,
   (resolvers_never_raise envNoThermalTree gpuEnvAmd).2.2.2.2.2.2.2.2 [ctrlAmd] rfl⟩

/-- Claim C9: the time slept before the next tick equals
`max(0, intervalMs − elapsed)`; in particular no sleep occurs when the
elapsed time is at least the fixed interval, and the next tick start is
the tick start plus elapsed plus that sleep. -/
theorem drift_corrected_sleep (elapsed : ℤ) :
    sleepFor elapsed = max 0 (intervalMs - elapsed) ∧
    (intervalMs ≤ elapsed → sleepFor elapsed = 0) ∧
    ∀ (started : ℤ) (body : Except Unit Unit),
      (runTick started body elapsed).nextStart =
        started + elapsed + max 0 (intervalMs - elapsed) := by
  have h1 : sleepFor elapsed = max 0 (intervalMs - elapsed) := by
    rw [sleepFor, max_def]
    split_ifs <;> omega
  refine ⟨h1, ?_, ?_⟩
  · intro h
    rw [h1, max_eq_left (by omega)]
  · intro s b
    show s + elapsed + sleepFor elapsed = s + elapsed + max 0 (intervalMs - elapsed)
    rw [h1]

/-- Claim C9, witness: a 35000 ms tick sleeps 0 ms. -/
theorem drift_corrected_sleep_witness : sleepFor 35000 = 0 :=
  (drift_corrected_sleep 35000).2.1 (by decide)

/-- Claim C10: the vendor-CLI fallback can change only the `temperatureGpu`
and `source` fields, and changes both together or neither: the model label
and memory temperature are always exactly the library-derived values, and
the source is `nvidia-smi` exactly when the temperature was overwritten
with the parsed CLI integer. -/
theorem gpu_frame_condition (smiRes : Except Unit String) (c : Controller) :
    (resolveController smiRes c).model =
      (if c.model != "" then c.model
       else if c.vendor != "" then c.vendor else "Unknown GPU") ∧
    (resolveController smiRes c).temperatureMemory = libNumber c.temperatureMemory ∧
    (((resolveController smiRes c).temperatureGpu = libNumber c.temperatureGpu ∧
      (resolveController smiRes c).source = "systeminformation") ∨
     ((resolveController smiRes c).source = "nvidia-smi" ∧
      libNumber c.temperatureGpu = none ∧
      ∃ n, smiParse smiRes = some n ∧
        (resolveController smiRes c).temperatureGpu = some (JsNum.fin (n : ℚ)))) := by
  refine ⟨rfl, rfl, ?_⟩
  by_cases hcond : ((libNumber c.temperatureGpu).isNone &&
      nvidiaMatch c.vendor c.model) = true
  · obtain ⟨hl, _⟩ := Bool.and_eq_true_iff.mp hcond
    rw [Option.isNone_iff_eq_none] at hl
    cases hs : smiParse smiRes with
    | some n =>
      have h2 : (resolveController smiRes c).source = "nvidia-smi" := by
        simp [resolveController, hcond, hs]
      have h1 : (resolveController smiRes c).temperatureGpu =
          some (JsNum.fin (n : ℚ)) := by
        simp [resolveController, hcond, hs]
      exact .inr ⟨h2, hl, n, rfl, h1⟩
    | none =>
      have h2 : (resolveController smiRes c).source = "systeminformation" := by
        simp [resolveController, hcond, hs]
      have h1 : (resolveController smiRes c).temperatureGpu =
          libNumber c.temperatureGpu := by
        simp [resolveController, hcond, hs, hl]
      exact .inl ⟨h1, h2⟩
  · rw [Bool.not_eq_true] at hcond
    have h2 : (resolveController smiRes c).source = "systeminformation" := by
      simp [resolveController, hcond]
    have h1 : (resolveController smiRes c).temperatureGpu =
        libNumber c.temperatureGpu := by
      simp [resolveController, hcond]
    exact .inl ⟨h1, h2⟩

end TempMon
